import Mathlib

/-!
Shallow embedding of the NGO food-waste dashboard (`new.py`).

The program is a single reactive script over two CSV-backed tables
(Inventory and WasteLog).  We model:

  * the two record types and the two table files (header + rows);
  * the filesystem layer (`FS`, files possibly absent) used by
    `init_data_files`;
  * the in-memory store (`Store`, both files present) on which every
    button handler acts as a load / modify / save round trip;
  * the button handlers `btn_add_item`, `btn_log_waste`, the three
    delete handlers, `btn_confirm_reset`;
  * the group-and-sum aggregation used by the Home and Analytics views,
    including the unbound-variable slip of the Analytics branch
    (`waste_df` instead of the locally loaded `df`);
  * a character-level CSV codec standing for `pandas.read_csv` /
    `DataFrame.to_csv` (no quoting, no type inference), for the
    load/save round-trip property.

Dates are carried as strings; the current system date (what
`datetime.today().strftime` with a year-month-day pattern yields)
enters each handler as an explicit `today` argument.
-/

set_option autoImplicit false

namespace NgoDashboard

/-- One row of `inventory.csv`: `Item, Quantity, Date Received, Expiry Date`. -/
structure InventoryRecord where
  item : String
  quantity : Nat
  dateReceived : String
  expiryDate : String
deriving DecidableEq, Repr

/-- One row of `waste_log.csv`: `Item, Quantity Wasted, Reason, Waste Date`. -/
structure WasteRecord where
  item : String
  quantityWasted : Nat
  reason : String
  wasteDate : String
deriving DecidableEq, Repr

/-- Header of `inventory.csv`, as hard-coded in `init_data_files`,
`btn_add_item` and `btn_confirm_reset`. -/
def invHeader : List String := ["Item", "Quantity", "Date Received", "Expiry Date"]

/-- Header of `waste_log.csv`, as hard-coded in `init_data_files`,
`btn_log_waste` and `btn_confirm_reset`. -/
def wasteHeader : List String := ["Item", "Quantity Wasted", "Reason", "Waste Date"]

/-- The inventory file: its header row and its data rows. -/
structure InvFile where
  header : List String
  rows : List InventoryRecord
deriving DecidableEq, Repr

/-- The waste-log file: its header row and its data rows. -/
structure WasteFile where
  header : List String
  rows : List WasteRecord
deriving DecidableEq, Repr

/-- The empty-header inventory table:
`pd.DataFrame(columns=['Item', 'Quantity', 'Date Received', 'Expiry Date'])`. -/
def emptyInvFile : InvFile := ⟨invHeader, []⟩

/-- The empty-header waste table:
`pd.DataFrame(columns=['Item', 'Quantity Wasted', 'Reason', 'Waste Date'])`. -/
def emptyWasteFile : WasteFile := ⟨wasteHeader, []⟩

/-- The filesystem as `init_data_files` sees it: each of the two table
files may be absent (`none`). -/
structure FS where
  invFile : Option InvFile
  wasteFile : Option WasteFile
deriving DecidableEq, Repr

/-- For each of the two paths, `init_data_files()`: if the file does not
exist, write the empty-header table there; an existing file is left as it is. -/
def init_data_files (fs : FS) : FS :=
  { invFile :=
      match fs.invFile with
      | none => some emptyInvFile
      | some f => some f
    wasteFile :=
      match fs.wasteFile with
      | none => some emptyWasteFile
      | some f => some f }

/-- The state every button handler runs against after `init_data_files()`
has run: both table files exist. -/
structure Store where
  inv : InvFile
  waste : WasteFile
deriving DecidableEq, Repr

/-- Source `load_inventory()`: `pd.read_csv(inventory_file)`. -/
def load_inventory (s : Store) : InvFile := s.inv

/-- Source `load_waste_log()`: `pd.read_csv(waste_log_file)`. -/
def load_waste_log (s : Store) : WasteFile := s.waste

/-- Source `save_inventory(df)`: `df.to_csv(inventory_file, index=False)`. -/
def save_inventory (df : InvFile) (s : Store) : Store := { s with inv := df }

/-- Source `save_waste_log(df)`: `df.to_csv(waste_log_file, index=False)`. -/
def save_waste_log (df : WasteFile) (s : Store) : Store := { s with waste := df }

/-- Column result of `pd.concat([df, new_row])`: if the two frames carry
the same columns the result keeps them; otherwise the union is taken,
the first frame's columns first. -/
def concatHeader (h hnew : List String) : List String :=
  if h = hnew then h else h ++ hnew.filter (fun c => ¬ c ∈ h)

/-- The `Add Item` handler (`btn_add_item`): builds `new_row` with the
inventory columns and `Date Received` set to today's date, loads the
inventory, concatenates, saves. -/
def btn_add_item (item : String) (quantity : Nat) (today expiry_date : String)
    (s : Store) : Store :=
  let new_row : InventoryRecord :=
    { item := item, quantity := quantity, dateReceived := today,
      expiryDate := expiry_date }
  let df := load_inventory s
  save_inventory ⟨concatHeader df.header invHeader, df.rows ++ [new_row]⟩ s

/-- The `Log Waste` handler (`btn_log_waste`): loads the waste log,
builds `new_row` with the waste columns and `Waste Date` set to today's
date, concatenates, saves. -/
def btn_log_waste (item : String) (qty : Nat) (reason today : String)
    (s : Store) : Store :=
  let df := load_waste_log s
  let new_row : WasteRecord :=
    { item := item, quantityWasted := qty, reason := reason, wasteDate := today }
  save_waste_log ⟨concatHeader df.header wasteHeader, df.rows ++ [new_row]⟩ s

/-- The `Delete Waste Entry` handler on the Log Waste page
(`btn_del_waste`): `df.drop(index=i)` on the freshly loaded waste log,
then save.  On a freshly read CSV the index is `0..n-1`, so dropping
label `i` removes the row at position `i`. -/
def btn_del_waste (i : Nat) (s : Store) : Store :=
  let df := load_waste_log s
  save_waste_log ⟨df.header, df.rows.eraseIdx i⟩ s

/-- The Admin `Delete Inventory` handler (`btn_del_inv`): drop row `i`
from the loaded inventory and save the inventory file only. -/
def btn_del_inv (i : Nat) (s : Store) : Store :=
  let df := load_inventory s
  save_inventory ⟨df.header, df.rows.eraseIdx i⟩ s

/-- The Admin `Delete Waste` handler (`btn_del_admin_waste`): drop row
`i` from the loaded waste log and save. -/
def btn_del_admin_waste (i : Nat) (s : Store) : Store :=
  let df := load_waste_log s
  save_waste_log ⟨df.header, df.rows.eraseIdx i⟩ s

/-- The Admin `Confirm Reset` handler (`btn_confirm_reset`): overwrite
both files with their empty-header tables. -/
def btn_confirm_reset (s : Store) : Store :=
  save_waste_log emptyWasteFile (save_inventory emptyInvFile s)

/-- Distinct `Item` values of a waste table, in order of first
occurrence: the group keys of `df.groupby('Item')`. -/
def wasteItems (rows : List WasteRecord) : List String :=
  (rows.map (fun r => r.item)).dedup

/-- Summed `Quantity Wasted` over the rows of one `Item` group. -/
def sumFor (rows : List WasteRecord) (it : String) : Nat :=
  ((rows.filter (fun r => r.item = it)).map (fun r => r.quantityWasted)).sum

/-- The aggregation `df.groupby('Item')['Quantity Wasted'].sum()`: one `(Item, summed
quantity)` pair per distinct `Item` of the table. -/
def groupSumWaste (rows : List WasteRecord) : List (String × Nat) :=
  (wasteItems rows).map (fun it => (it, sumFor rows it))

/-- The selection `....sort_values(ascending=False).idxmax()` together with `....max()`
on the grouped sums: the pair carrying the largest summed quantity.
Which of several tied groups wins is implementation-defined in the
source (an unstable sort); here the earliest tied group wins. -/
def top_waste (rows : List WasteRecord) : Option (String × Nat) :=
  match groupSumWaste rows with
  | [] => none
  | p :: ps => some (ps.foldl (fun b q => if b.2 < q.2 then q else b) p)

/-- What the Analytics branch renders when the waste log is non-empty:
either a bar chart from some grouped data, or the crash raised by
evaluating an unbound name. -/
inductive AnalyticsRender where
  | emptyState
  | chart (data : List (String × Nat))
  | nameError
deriving DecidableEq, Repr

/-- The Analytics branch as written: `df = load_waste_log()`; if `df` is
empty, the empty-state message; otherwise the chart is built from
`waste_df.groupby('Item')['Quantity Wasted'].sum()` — but `waste_df` is
a name bound only inside the Home branch, which did not run in this
evaluation of the script.  `waste_df?` is that binding: `none` when the
name is unbound (the actual situation, a `NameError`), `some t` if some
evaluation model kept a stale table `t` bound. -/
def analytics_chart_data (waste_df? : Option (List WasteRecord)) (s : Store) :
    AnalyticsRender :=
  let df := load_waste_log s
  if df.rows = [] then .emptyState
  else
    match waste_df? with
    | none => .nameError
    | some t => .chart (groupSumWaste t)

/-- Modelled from the spec: the Analytics aggregation as the spec
requires it — computed from the same just-loaded, emptiness-checked
waste table (spec 4.7: "groups by Item, sums QuantityWasted" on the
loaded WasteLog). -/
def analytics_chart_data_spec (s : Store) : AnalyticsRender :=
  let df := load_waste_log s
  if df.rows = [] then .emptyState
  else .chart (groupSumWaste df.rows)

/-- The Home branch's "Most Wasted" line: `none` when the waste log is
empty (the line is not shown), otherwise the top item and its summed
quantity. -/
def home_most_wasted (s : Store) : Option (String × Nat) :=
  let waste_df := load_waste_log s
  if waste_df.rows = [] then none else top_waste waste_df.rows

/-- Character-level CSV splitting on one separator: `splitSep ',' line`
is the list of cells of `line`, `splitSep newline file` the list of
lines of `file`.  Splitting the empty text yields one empty field, as
CSV reading does. -/
def splitSep (sep : Char) : List Char → List (List Char)
  | [] => [[]]
  | c :: rest =>
    match splitSep sep rest with
    | [] => [[c]]
    | r :: rs => if c = sep then [] :: r :: rs else (c :: r) :: rs

/-- Character-level joining with one separator, inverse of `splitSep`. -/
def joinSep (sep : Char) : List (List Char) → List Char
  | [] => []
  | [x] => x
  | x :: y :: rest => x ++ sep :: joinSep sep (y :: rest)

/-- The line separator of the CSV files. -/
def newlineChar : Char := Char.ofNat 10

/-- Reading, as `pd.read_csv` does, at the character level and without quoting or type
inference: split the file into lines, each line into comma-separated
cells. -/
def read_csv_model (file : List Char) : List (List (List Char)) :=
  (splitSep newlineChar file).map (fun line => splitSep ',' line)

/-- Writing, as `DataFrame.to_csv(..., index=False)` does, at the same level: join each
row's cells with commas, the rows with line breaks. -/
def to_csv_model (t : List (List (List Char))) : List Char :=
  joinSep newlineChar (t.map (fun row => joinSep ',' row))

/-! Concrete tables used to instantiate the theorems, taken from the
scenario rows of the specification. -/

/-- Inventory row `("Rice", 10, "2024-01-01", "2024-06-01")`. -/
def sampleInvRow : InventoryRecord :=
  ⟨"Rice", 10, "2024-01-01", "2024-06-01"⟩

/-- Waste row `("Rice", 5, "expired", "2024-02-01")`. -/
def sampleWasteRow : WasteRecord := ⟨"Rice", 5, "expired", "2024-02-01"⟩

/-- Waste row `("Beans", 5, "expired", "2024-02-01")`. -/
def sampleWasteRow2 : WasteRecord := ⟨"Beans", 5, "expired", "2024-02-01"⟩

/-- A store holding one inventory row and two waste rows. -/
def sampleStore : Store :=
  ⟨⟨invHeader, [sampleInvRow]⟩, ⟨wasteHeader, [sampleWasteRow, sampleWasteRow2]⟩⟩

/-- What `df.drop(index=i)` does to the row list at a valid position:
one row fewer, the result is the original minus the entry at `i`, rows
before `i` keep their positions, rows after `i` shift down by one. -/
theorem eraseIdx_spec {α : Type} (l : List α) (i : Nat) (h : i < l.length) :
    (l.eraseIdx i).length = l.length - 1 ∧
    l.eraseIdx i = l.take i ++ l.drop (i + 1) ∧
    (∀ j, j < i → (l.eraseIdx i)[j]? = l[j]?) ∧
    (∀ j, i ≤ j → (l.eraseIdx i)[j]? = l[j + 1]?) := by
  refine ⟨?_, List.eraseIdx_eq_take_drop_succ l i, ?_, ?_⟩
  · simp [List.length_eraseIdx, h]
  · intro j hj
    exact List.getElem?_eraseIdx_of_lt l i j hj
  · intro j hj
    exact List.getElem?_eraseIdx_of_ge l i j hj

/-- C2: for every non-empty table (Inventory or WasteLog) and every valid
position `i`, the confirmed delete-by-position handler (each of the
three: `btn_del_waste`, `btn_del_inv`, `btn_del_admin_waste`) yields a
table with exactly one row fewer, equal to the original with exactly the
entry previewed at position `i` removed; every row before `i` keeps its
position and field values, every row after `i` keeps its field values at
position one lower. -/
theorem delete_by_position_removes_exactly_previewed (s : Store) (i : Nat) :
    (i < s.waste.rows.length →
      (btn_del_waste i s).waste.rows.length = s.waste.rows.length - 1 ∧
      (btn_del_waste i s).waste.rows =
        s.waste.rows.take i ++ s.waste.rows.drop (i + 1) ∧
      (∀ j, j < i → ((btn_del_waste i s).waste.rows)[j]? = s.waste.rows[j]?) ∧
      (∀ j, i ≤ j → ((btn_del_waste i s).waste.rows)[j]? = s.waste.rows[j + 1]?)) ∧
    (i < s.inv.rows.length →
      (btn_del_inv i s).inv.rows.length = s.inv.rows.length - 1 ∧
      (btn_del_inv i s).inv.rows = s.inv.rows.take i ++ s.inv.rows.drop (i + 1) ∧
      (∀ j, j < i → ((btn_del_inv i s).inv.rows)[j]? = s.inv.rows[j]?) ∧
      (∀ j, i ≤ j → ((btn_del_inv i s).inv.rows)[j]? = s.inv.rows[j + 1]?)) ∧
    (i < s.waste.rows.length →
      (btn_del_admin_waste i s).waste.rows.length = s.waste.rows.length - 1 ∧
      (btn_del_admin_waste i s).waste.rows =
        s.waste.rows.take i ++ s.waste.rows.drop (i + 1) ∧
      (∀ j, j < i →
        ((btn_del_admin_waste i s).waste.rows)[j]? = s.waste.rows[j]?) ∧
      (∀ j, i ≤ j →
        ((btn_del_admin_waste i s).waste.rows)[j]? = s.waste.rows[j + 1]?)) :=
  ⟨fun h => eraseIdx_spec s.waste.rows i h,
   fun h => eraseIdx_spec s.inv.rows i h,
   fun h => eraseIdx_spec s.waste.rows i h⟩

/-- Witness for C2 at the two-row waste table and position `0`. -/
theorem delete_by_position_removes_exactly_previewed_witness :
    0 < sampleStore.waste.rows.length ∧
    (btn_del_waste 0 sampleStore).waste.rows.length =
      sampleStore.waste.rows.length - 1 ∧
    (btn_del_waste 0 sampleStore).waste.rows =
      sampleStore.waste.rows.take 0 ++ sampleStore.waste.rows.drop 1 :=
  ⟨by decide,
   ((delete_by_position_removes_exactly_previewed sampleStore 0).1 (by decide)).1,
   ((delete_by_position_removes_exactly_previewed sampleStore 0).1 (by decide)).2.1⟩

/-- C3: a valid Add-Inventory submission (quantity at least 1) grows the
persisted inventory by exactly one row; the appended row is the last
one, carries the submitted fields, and its `Date Received` equals the
current date string; all previously existing rows are unchanged, in
place. -/
theorem add_item_appends_one_row (s : Store) (item : String) (q : Nat)
    (today expiry : String) (hq : 1 ≤ q) :
    (btn_add_item item q today expiry s).inv.rows.length = s.inv.rows.length + 1 ∧
    (∃ r, (btn_add_item item q today expiry s).inv.rows.getLast? = some r ∧
      r.dateReceived = today ∧ r.item = item ∧ r.quantity = q ∧
      r.expiryDate = expiry) ∧
    (btn_add_item item q today expiry s).inv.rows.take s.inv.rows.length =
      s.inv.rows := by
  refine ⟨?_, ⟨⟨item, q, today, expiry⟩, ?_, rfl, rfl, rfl, rfl⟩, ?_⟩
  · simp [btn_add_item, load_inventory, save_inventory]
  · simp [btn_add_item, load_inventory, save_inventory]
  · simp [btn_add_item, load_inventory, save_inventory, List.take_left]

/-- Witness for C3: adding `("Beans", 3)` on the sample store. -/
theorem add_item_appends_one_row_witness :
    1 ≤ 3 ∧
    (btn_add_item "Beans" 3 "2024-03-04" "2024-09-01" sampleStore).inv.rows.length =
      sampleStore.inv.rows.length + 1 :=
  ⟨by decide,
   (add_item_appends_one_row sampleStore "Beans" 3 "2024-03-04" "2024-09-01"
     (by decide)).1⟩

/-- C4: a valid Log-Waste submission (quantity at least 1) grows the
persisted waste log by exactly one row; the appended row is the last
one, carries the submitted fields, and its `Waste Date` equals the
current date string; all previously existing rows are unchanged, in
place. -/
theorem log_waste_appends_one_row (s : Store) (item : String) (q : Nat)
    (reason today : String) (hq : 1 ≤ q) :
    (btn_log_waste item q reason today s).waste.rows.length =
      s.waste.rows.length + 1 ∧
    (∃ r, (btn_log_waste item q reason today s).waste.rows.getLast? = some r ∧
      r.wasteDate = today ∧ r.item = item ∧ r.quantityWasted = q ∧
      r.reason = reason) ∧
    (btn_log_waste item q reason today s).waste.rows.take s.waste.rows.length =
      s.waste.rows := by
  refine ⟨?_, ⟨⟨item, q, reason, today⟩, ?_, rfl, rfl, rfl, rfl⟩, ?_⟩
  · simp [btn_log_waste, load_waste_log, save_waste_log]
  · simp [btn_log_waste, load_waste_log, save_waste_log]
  · simp [btn_log_waste, load_waste_log, save_waste_log, List.take_left]

/-- Witness for C4: logging 2 wasted `"Rice"` on the sample store. -/
theorem log_waste_appends_one_row_witness :
    1 ≤ 2 ∧
    (btn_log_waste "Rice" 2 "spoiled" "2024-03-04" sampleStore).waste.rows.length =
      sampleStore.waste.rows.length + 1 :=
  ⟨by decide,
   (log_waste_appends_one_row sampleStore "Rice" 2 "spoiled" "2024-03-04"
     (by decide)).1⟩

/-- C5: after the confirmed Reset-All handler runs, loading either table
returns the empty-header form: zero rows under exactly the header
columns. -/
theorem reset_all_empties_both_tables (s : Store) :
    load_inventory (btn_confirm_reset s) = ⟨invHeader, []⟩ ∧
    load_waste_log (btn_confirm_reset s) = ⟨wasteHeader, []⟩ :=
  ⟨rfl, rfl⟩

/-- C9: the Admin delete-from-Inventory handler leaves the waste-log
file entirely unchanged, for every store and every position — no
cascade, no referential-integrity maintenance. -/
theorem del_inv_leaves_waste_log_unchanged (s : Store) (i : Nat) :
    load_waste_log (btn_del_inv i s) = load_waste_log s :=
  rfl

/-- C8: `init_data_files` creates an absent table file as the
empty-header table (zero rows, exactly the header columns) and leaves an
existing table file's content completely unchanged; this holds
independently for each of the two files. -/
theorem init_creates_absent_and_preserves_existing (fs : FS) :
    (fs.invFile = none → (init_data_files fs).invFile = some emptyInvFile) ∧
    (∀ f, fs.invFile = some f → (init_data_files fs).invFile = some f) ∧
    (fs.wasteFile = none → (init_data_files fs).wasteFile = some emptyWasteFile) ∧
    (∀ f, fs.wasteFile = some f → (init_data_files fs).wasteFile = some f) ∧
    emptyInvFile.header = invHeader ∧ emptyInvFile.rows = [] ∧
    emptyWasteFile.header = wasteHeader ∧ emptyWasteFile.rows = [] := by
  refine ⟨?_, ?_, ?_, ?_, rfl, rfl, rfl, rfl⟩ <;>
    cases hinv : fs.invFile <;> cases hw : fs.wasteFile <;>
      simp_all [init_data_files]

/-- Witness for C8: a filesystem with the inventory file absent and the
sample waste file present. -/
theorem init_creates_absent_and_preserves_existing_witness :
    (init_data_files ⟨none, some sampleStore.waste⟩).invFile =
      some emptyInvFile ∧
    (init_data_files ⟨none, some sampleStore.waste⟩).wasteFile =
      some sampleStore.waste :=
  ⟨(init_creates_absent_and_preserves_existing ⟨none, some sampleStore.waste⟩).1
     rfl,
   (init_creates_absent_and_preserves_existing
     ⟨none, some sampleStore.waste⟩).2.2.2.1 sampleStore.waste rfl⟩

/-- C1 (bug witness): on the Analytics page with a non-empty waste log,
the source aggregates `waste_df`, a name never bound in this evaluation
of the script (it is only assigned inside the Home branch), instead of
the just-loaded and emptiness-checked `df`; evaluating the branch at a
one-row waste log yields the unbound-name error, while aggregating the
loaded table as the spec requires yields the chart `[("Rice", 5)]`. -/
theorem analytics_aggregates_stale_variable :
    sampleStore.waste.rows ≠ [] ∧
    analytics_chart_data none sampleStore = AnalyticsRender.nameError ∧
    analytics_chart_data_spec sampleStore =
      AnalyticsRender.chart [("Rice", 5), ("Beans", 5)] ∧
    analytics_chart_data none sampleStore ≠ analytics_chart_data_spec sampleStore := by
  refine ⟨by decide, ?_, ?_, ?_⟩ <;> decide

/-- For the argmax fold of `top_waste`: the result is one of the folded
pairs and its second component dominates all of them. -/
theorem foldl_argmax_spec (p : String × Nat) (ps : List (String × Nat)) :
    ps.foldl (fun b q => if b.2 < q.2 then q else b) p ∈ p :: ps ∧
    ∀ q ∈ p :: ps, q.2 ≤ (ps.foldl (fun b q => if b.2 < q.2 then q else b) p).2 := by
  induction ps generalizing p with
  | nil =>
    refine ⟨List.mem_singleton.mpr rfl, ?_⟩
    intro x hx
    rw [List.mem_singleton] at hx
    subst hx
    exact le_refl _
  | cons q ps ih =>
    have hb : (if p.2 < q.2 then q else p) = p ∨ (if p.2 < q.2 then q else p) = q := by
      by_cases hpq : p.2 < q.2
      · rw [if_pos hpq]
        exact Or.inr rfl
      · rw [if_neg hpq]
        exact Or.inl rfl
    have hp2 : p.2 ≤ (if p.2 < q.2 then q else p).2 := by
      by_cases hpq : p.2 < q.2
      · rw [if_pos hpq]
        exact le_of_lt hpq
      · rw [if_neg hpq]
    have hq2 : q.2 ≤ (if p.2 < q.2 then q else p).2 := by
      by_cases hpq : p.2 < q.2
      · rw [if_pos hpq]
      · rw [if_neg hpq]
        exact le_of_not_lt hpq
    obtain ⟨hmem, hmax⟩ := ih (if p.2 < q.2 then q else p)
    rw [List.foldl_cons]
    constructor
    · rcases List.mem_cons.mp hmem with h | h
      · rcases hb with hb | hb
        · rw [h, hb]
          exact List.mem_cons_self _ _
        · rw [h, hb]
          exact List.mem_cons_of_mem _ (List.mem_cons_self _ _)
      · exact List.mem_cons_of_mem _ (List.mem_cons_of_mem _ h)
    · intro x hx
      rcases List.mem_cons.mp hx with rfl | hx
      · exact le_trans hp2 (hmax _ (List.mem_cons_self _ _))
      · rcases List.mem_cons.mp hx with rfl | hx
        · exact le_trans hq2 (hmax _ (List.mem_cons_self _ _))
        · exact hmax _ (List.mem_cons_of_mem _ hx)

/-- A non-empty waste table has a non-empty list of grouped sums. -/
theorem groupSumWaste_ne_nil (rows : List WasteRecord) (h : rows ≠ []) :
    groupSumWaste rows ≠ [] := by
  cases rows with
  | nil => exact absurd rfl h
  | cons r rest =>
    simp only [groupSumWaste, wasteItems, ne_eq, List.map_eq_nil_iff]
    intro hd
    have : r.item ∈ ([] : List String) := by
      rw [← hd]
      exact List.mem_dedup.mpr (List.mem_map_of_mem _ (List.mem_cons_self _ _))
    simp at this

/-- C7: whenever the waste log is non-empty, the Home view's "most
wasted" line reports an item of the grouped table whose summed
`Quantity Wasted` is maximal among all distinct items, together with
that maximal sum (which tied item is reported is implementation-
defined). -/
theorem home_most_wasted_is_argmax (s : Store) (h : s.waste.rows ≠ []) :
    ∃ it q, home_most_wasted s = some (it, q) ∧
      (it, q) ∈ groupSumWaste s.waste.rows ∧
      ∀ p ∈ groupSumWaste s.waste.rows, p.2 ≤ q := by
  obtain ⟨p, ps, hps⟩ := List.exists_cons_of_ne_nil (groupSumWaste_ne_nil _ h)
  obtain ⟨hmem, hmax⟩ := foldl_argmax_spec p ps
  refine ⟨(ps.foldl (fun b q => if b.2 < q.2 then q else b) p).1,
          (ps.foldl (fun b q => if b.2 < q.2 then q else b) p).2, ?_, ?_, ?_⟩
  · simp [home_most_wasted, load_waste_log, h, top_waste, hps]
  · rw [hps]
    exact hmem
  · rw [hps]
    exact hmax

/-- Witness for C7 at the tied two-item waste log of the spec scenario:
the reported pair is a grouped pair of maximal sum. -/
theorem home_most_wasted_is_argmax_witness :
    sampleStore.waste.rows ≠ [] ∧
    (∃ it q, home_most_wasted sampleStore = some (it, q) ∧
      (it, q) ∈ groupSumWaste sampleStore.waste.rows ∧
      ∀ p ∈ groupSumWaste sampleStore.waste.rows, p.2 ≤ q) :=
  ⟨by decide, home_most_wasted_is_argmax sampleStore (by decide)⟩

/-- Splitting never yields an empty list of fields. -/
theorem splitSep_ne_nil (sep : Char) (l : List Char) : splitSep sep l ≠ [] := by
  cases l with
  | nil => simp [splitSep]
  | cons c rest =>
    simp only [splitSep]
    cases h : splitSep sep rest with
    | nil => simp
    | cons r rs =>
      by_cases hc : c = sep <;> simp [hc]

/-- Joining the split of a text with the same separator restores the
text exactly. -/
theorem joinSep_splitSep (sep : Char) (l : List Char) :
    joinSep sep (splitSep sep l) = l := by
  induction l with
  | nil => rfl
  | cons c rest ih =>
    obtain ⟨r, rs, hr⟩ := List.exists_cons_of_ne_nil (splitSep_ne_nil sep rest)
    rw [hr] at ih
    simp only [splitSep, hr]
    by_cases hc : c = sep
    · rw [if_pos hc]
      simp only [joinSep, List.nil_append] at ih ⊢
      cases rs with
      | nil =>
        simp only [joinSep] at ih ⊢
        rw [ih, hc]
      | cons y ys => rw [ih, hc]
    · rw [if_neg hc]
      cases rs with
      | nil =>
        simp only [joinSep] at ih ⊢
        rw [ih]
      | cons y ys =>
        simp only [joinSep, List.cons_append] at ih ⊢
        rw [ih]

/-- Re-joining each line of a split file is the identity, linewise. -/
theorem map_join_split (sep : Char) (ls : List (List Char)) :
    ls.map (fun line => joinSep sep (splitSep sep line)) = ls := by
  induction ls with
  | nil => rfl
  | cons a as ih => simp [joinSep_splitSep, ih]

/-- Writing back a freshly parsed CSV file reproduces the file text. -/
theorem to_csv_after_read_csv (file : List Char) :
    to_csv_model (read_csv_model file) = file := by
  unfold to_csv_model read_csv_model
  rw [List.map_map]
  change joinSep newlineChar
    ((splitSep newlineChar file).map
      (fun line => joinSep ',' (splitSep ',' line))) = file
  rw [map_join_split, joinSep_splitSep]

/-- C6: for every table file, loading it, saving the loaded rows
unchanged, and loading again yields exactly the row content of the
first load — the load-save-load round trip is the identity on row
content. -/
theorem load_save_load_round_trip (file : List Char) :
    read_csv_model (to_csv_model (read_csv_model file)) = read_csv_model file := by
  rw [to_csv_after_read_csv]

/-- The table-writing button handlers of the script, as one alphabet of
operations on the store. -/
inductive TableOp where
  | addItem (item : String) (qty : Nat) (today expiry : String)
  | logWaste (item : String) (qty : Nat) (reason today : String)
  | delWasteEntry (i : Nat)
  | delInvEntry (i : Nat)
  | delAdminWasteEntry (i : Nat)
  | resetAll
deriving DecidableEq, Repr

/-- Dispatch of a table-writing operation to its handler. -/
def applyOp : TableOp → Store → Store
  | .addItem it q t e, s => btn_add_item it q t e s
  | .logWaste it q r t, s => btn_log_waste it q r t s
  | .delWasteEntry i, s => btn_del_waste i s
  | .delInvEntry i, s => btn_del_inv i s
  | .delAdminWasteEntry i, s => btn_del_admin_waste i s
  | .resetAll, s => btn_confirm_reset s

/-- Both files carry exactly their canonical header columns, in order. -/
def schemaOK (s : Store) : Prop :=
  s.inv.header = invHeader ∧ s.waste.header = wasteHeader

/-- Each table file that exists carries its canonical header columns. -/
def fsSchemaOK (fs : FS) : Prop :=
  (∀ f, fs.invFile = some f → f.header = invHeader) ∧
  (∀ f, fs.wasteFile = some f → f.header = wasteHeader)

/-- C10: every write preserves the schema: `init_data_files` keeps (and,
for absent files, establishes) the canonical headers, and each of add,
log-waste, the three deletes and reset maps a store with canonical
headers to a store with canonical headers — `Item, Quantity, Date
Received, Expiry Date` for the inventory and `Item, Quantity Wasted,
Reason, Waste Date` for the waste log, in those orders. -/
theorem every_write_preserves_schema :
    (∀ fs : FS, fsSchemaOK fs → fsSchemaOK (init_data_files fs)) ∧
    (∀ (op : TableOp) (s : Store), schemaOK s → schemaOK (applyOp op s)) := by
  constructor
  · rintro fs ⟨h1, h2⟩
    constructor
    · intro f hf
      cases hinv : fs.invFile with
      | none =>
        simp [init_data_files, hinv] at hf
        rw [← hf]
        rfl
      | some g =>
        simp [init_data_files, hinv] at hf
        rw [← hf]
        exact h1 g hinv
    · intro f hf
      cases hw : fs.wasteFile with
      | none =>
        simp [init_data_files, hw] at hf
        rw [← hf]
        rfl
      | some g =>
        simp [init_data_files, hw] at hf
        rw [← hf]
        exact h2 g hw
  · rintro op s ⟨h1, h2⟩
    cases op with
    | addItem it q t e =>
      exact ⟨by simp [applyOp, btn_add_item, load_inventory, save_inventory,
        concatHeader, h1], h2⟩
    | logWaste it q r t =>
      exact ⟨h1, by simp [applyOp, btn_log_waste, load_waste_log, save_waste_log,
        concatHeader, h2]⟩
    | delWasteEntry i => exact ⟨h1, h2⟩
    | delInvEntry i => exact ⟨h1, h2⟩
    | delAdminWasteEntry i => exact ⟨h1, h2⟩
    | resetAll => exact ⟨rfl, rfl⟩

/-- Witness for C10: the sample store satisfies the schema, reset keeps
it, and initializing the empty filesystem yields canonical headers. -/
theorem every_write_preserves_schema_witness :
    schemaOK sampleStore ∧ schemaOK (applyOp TableOp.resetAll sampleStore) ∧
    fsSchemaOK (init_data_files ⟨none, none⟩) := by
  refine ⟨⟨rfl, rfl⟩, ?_, ?_⟩
  · exact every_write_preserves_schema.2 TableOp.resetAll sampleStore ⟨rfl, rfl⟩
  · exact every_write_preserves_schema.1 ⟨none, none⟩
      (by constructor <;> intro f hf <;> cases hf)

end NgoDashboard
